import Mathlib

/-!
Verification of the filing classification and deduplication engine of the
`mzansi` repository (`src/app.py`), as a shallow embedding in Lean 4.

Machine integers are modelled as `Int` (Python ints are unbounded); Python's
`%` and `//` on integers are Euclidean mod / floor division for the positive
divisors used here, which coincide with Lean's `Int` `%` and `/`.  Python
strings are modelled as Lean `String` (a wrapper around `List Char`), with
structurally recursive helpers standing in for the string/`re` operations the
source uses.  Fallible operations (`int(...)` parses, date parses) are
modelled with `Option`.
-/

namespace Mzansi

/-- A calendar date, as used by `datetime.date` in the source: only the
`year`/`month`/`day` fields are ever read. -/
structure Date where
  year : Int
  month : Int
  day : Int
deriving DecidableEq

/-! ### String helpers

Structurally recursive stand-ins for the Python string operations used by the
source (`in`, `split`, `startswith`, `strip`, `lower`, `int(...)`). -/

/-- `startsWithL pat l`: `pat` is a prefix of `l` (Python `str.startswith`). -/
def startsWithL : List Char → List Char → Bool
  | [], _ => true
  | _ :: _, [] => false
  | p :: ps, c :: cs => p == c && startsWithL ps cs

/-- Substring containment (Python `pat in s`); the empty pattern is contained
in every string, as in Python. -/
def containsSubL (pat : List Char) : List Char → Bool
  | [] => startsWithL pat []
  | c :: cs => startsWithL pat (c :: cs) || containsSubL pat cs

/-- The suffix of `l` after the last occurrence of the character `c`
(`l.split(c)[-1]` when `c` occurs in `l`; the whole list otherwise). -/
def afterLastChar (c : Char) : List Char → List Char
  | [] => []
  | x :: r => if r.contains c then afterLastChar c r else if x == c then r else x :: r

/-- The suffix of `l` after the last occurrence of the pattern `pat`
(`l.split(pat)[-1]` when `pat` occurs in `l`; the whole list otherwise). -/
def afterLastSub (pat : List Char) : List Char → List Char
  | [] => []
  | x :: r =>
    if containsSubL pat r then afterLastSub pat r
    else if startsWithL pat (x :: r) then (x :: r).drop pat.length
    else x :: r

/-- Parse a decimal integer with an optional leading minus sign; `none` when
the digit string is empty or holds a non-digit (models `int(...)` raising
`ValueError` on the label fragments the source parses). -/
def parseDigitsL : List Char → Option Nat
  | [] => none
  | [c] => if c.isDigit then some (c.toNat - '0'.toNat) else none
  | c :: cs =>
    if c.isDigit then
      match parseDigitsL cs with
      | some n => some ((c.toNat - '0'.toNat) * 10 ^ cs.length + n)
      | none => none
    else none

/-- `int(...)` on a string: optional sign, then digits. -/
def parseIntL : List Char → Option Int
  | [] => none
  | c :: cs =>
    if c == '-' then (parseDigitsL cs).map (fun n => -(n : Int))
    else (parseDigitsL (c :: cs)).map (fun n => (n : Int))

/-- Whitespace characters recognised by Python's `str.strip()` (ASCII). -/
def isWs (c : Char) : Bool :=
  c == ' ' || c == '\t' || c == '\n' || c == '\r' || c == '\x0b' || c == '\x0c'

/-- Python `str.strip()`: drop leading and trailing whitespace. -/
def stripWs (l : List Char) : List Char :=
  ((l.dropWhile isWs).reverse.dropWhile isWs).reverse

/-- Split a character list on a separator character (Python `str.split(sep)`). -/
def splitOnCharL (sep : Char) : List Char → List (List Char)
  | [] => [[]]
  | c :: cs =>
    let rest := splitOnCharL sep cs
    if c == sep then [] :: rest
    else match rest with
      | [] => [[c]]
      | r :: rs => (c :: r) :: rs

/-- Python `str.lower()` (ASCII, sufficient for the source's inputs). -/
def lowerStr (s : String) : String :=
  ⟨s.data.map Char.toLower⟩

/-! ### Period-label rendering

The source renders labels with f-strings: `f"FY{y % 100:02d}"`,
`f"{q}Q{y % 100:02d}"`.  `y % 100` is in `[0, 100)`, so `:02d` renders
exactly two digits; `q` is a single digit on every reachable input. -/

/-- Two-digit zero-padded rendering of `y % 100` (`f"{y % 100:02d}"`). -/
def twoDigits (y : Int) : String :=
  ⟨[Nat.digitChar ((y % 100).toNat / 10), Nat.digitChar ((y % 100).toNat % 10)]⟩

/-- `f"FY{y % 100:02d}"`. -/
def fyStr (y : Int) : String := "FY" ++ twoDigits y

/-- `f"{q}Q{y % 100:02d}"` (the quarter is a single digit on every reachable
input of the source). -/
def qStr (q : Int) (y : Int) : String :=
  (⟨[Nat.digitChar q.toNat]⟩ : String) ++ "Q" ++ twoDigits y

/-! ### Period Classifier, distance-from-FYE variant (`src/app.py` 692-728)

`get_8k_period_label_by_distance(filing_date, fiscal_year_end_month, fy_adjust)`.
The `fiscal_year_end_month` argument is modelled as `Option Int`: `none`
stands for a value on which `int(...)` raises (`ValueError`/`TypeError`),
which the source catches by returning `None`. -/

/-- The distance `d = ((M - F - 1) % 12) + 1` computed at `src/app.py:712`. -/
def d8 (M F : Int) : Int := ((M - F - 1) % 12) + 1

/-- Shallow embedding of `get_8k_period_label_by_distance`
(`src/app.py:692-728`). -/
def get_8k_period_label_by_distance (filing_date : Date)
    (fiscal_year_end_month : Option Int) (fy_adjust : String) : Option String :=
  match fiscal_year_end_month with
  | none => none
  | some F =>
    let M := filing_date.month
    let fy_end_year := if M ≤ F then filing_date.year - 1 else filing_date.year
    let fy_end_year := if fy_adjust = "Previous Year" then fy_end_year - 1 else fy_end_year
    let d := d8 M F
    some (if 1 ≤ d ∧ d ≤ 3 then fyStr fy_end_year
      else if 4 ≤ d ∧ d ≤ 6 then qStr 1 (fy_end_year + 1)
      else if 7 ≤ d ∧ d ≤ 9 then qStr 2 (fy_end_year + 1)
      else qStr 3 (fy_end_year + 1))

/-! ### Period Classifier, report-date variant (`src/app.py` 732-769)

`get_period_label_from_report_date(form, report_date, fiscal_year_end_month, fy_adjust)`.
The `fiscal_year_end_month` argument is again `Option Int` (`none` = a value
on which `int(...)` raises); the source substitutes 12 for unparseable or
out-of-range months and never fails. -/

/-- Shallow embedding of `get_period_label_from_report_date`
(`src/app.py:732-769`). -/
def get_period_label_from_report_date (form : String) (report_date : Date)
    (fiscal_year_end_month : Option Int) (fy_adjust : String) : String :=
  let fyem : Int := match fiscal_year_end_month with
    | some m => if 1 ≤ m ∧ m ≤ 12 then m else 12
    | none => 12
  let fiscal_year_end_year :=
    if report_date.month ≤ fyem then report_date.year else report_date.year + 1
  let fiscal_year_label_year :=
    if fy_adjust = "Previous Year" then fiscal_year_end_year - 1 else fiscal_year_end_year
  if form = "10-K" then fyStr fiscal_year_label_year
  else if form = "10-Q" then
    let months_past_fye_start := (report_date.month - ((fyem % 12) + 1) + 12) % 12
    let quarter := months_past_fye_start / 3 + 1
    let quarter :=
      if quarter < 1 ∨ quarter > 3 then
        let months_before_fye := (fyem - report_date.month + 12) % 12
        let q2 := if months_before_fye < 3 then 3
          else if months_before_fye < 6 then 2
          else if months_before_fye < 9 then 1
          else 3
        max 1 (min 3 q2)
      else quarter
    qStr quarter fiscal_year_label_year
  else fyStr fiscal_year_label_year

/-! ### Spec-side formulas (§4.2 of the spec), for comparison with the code -/

/-- Follows the spec's words: the label year — `report_date.year` if
`report_date.month <= fyem` else `report_date.year + 1`, minus 1 exactly when
the basis is "Previous Year". -/
def specLabelYear (rd : Date) (fyem : Int) (adj : String) : Int :=
  let fey := if rd.month ≤ fyem then rd.year else rd.year + 1
  if adj = "Previous Year" then fey - 1 else fey

/-- Follows the spec's words:
`months_past_start = (report_date.month - ((fyem % 12) + 1) + 12) mod 12`. -/
def specMonthsPastStart (rd : Date) (fyem : Int) : Int :=
  (rd.month - ((fyem % 12) + 1) + 12) % 12

/-- Follows the spec's words: `quarter = months_past_start // 3 + 1`. -/
def specQuarter (rd : Date) (fyem : Int) : Int :=
  specMonthsPastStart rd fyem / 3 + 1

/-! ### Selection & Dedup Engine (`src/app.py` `process_filing`, 1067-1327)

The engine walks the aggregated filing list and emits tasks.  Network and
filesystem effects (the EDGAR fetches, `os.makedirs`, the log list and the
progress counters) are outside the shallow embedding; the 8-K exhibit
resolution network call `get_earnings_release_exhibit_info` is modelled as an
oracle `resolve : Filing → Option ExhibitInfo` supplied to the engine. -/

/-- One normalized filing record (`src/app.py:1150-1156`). -/
structure Filing where
  accession_raw : String
  accession_clean : String
  form : String
  filing_date : Date
  filing_date_str : String
  acceptance_datetime_str : String
  report_date : Option Date
  report_date_str : String
  primary_doc : String
  items : String
deriving DecidableEq

/-- The per-run configuration values of `process_filing` that the selection
phase reads (`cik_padded`, `ticker`, `fy_month_str`,
`user_fy_end_month_int = int(fy_month_str)`, `fy_adjust`,
`archive_base_url`). -/
structure RunCfg where
  archive_base_url : String
  ticker : String
  cik_padded : String
  fy_month_str : String
  user_fy_end_month_int : Int
  fy_adjust : String
deriving DecidableEq

/-- A resolver result (`get_earnings_release_exhibit_info` return dict,
without the internal `priority` key). -/
structure ExhibitInfo where
  url : String
  filename : String
  description : String
  exType : String
deriving DecidableEq

/-- A 10-K/10-Q task dict (`src/app.py:1302-1308`).  `period` records the
label under which the task was claimed in `processed_periods` (the source
embeds it in `output_filename_base`). -/
structure Task10 where
  target_url : String
  form : String
  report_date_str : String
  accession : String
  cik : String
  ticker : String
  fy_month : String
  fy_adjust : String
  output_filename_base : String
  filing_date_str : String
  acceptance_datetime_str : String
  period : String
deriving DecidableEq

/-- An 8-K earnings task dict (`src/app.py:1253-1269`). -/
structure Task8 where
  target_url : String
  form : String
  accession : String
  cik : String
  ticker : String
  output_filename_base : String
  filing_date_str : String
  acceptance_datetime_str : String
  report_date_str : String
  fy_month : String
  fy_adjust : String
  exhibit_description : String
  exhibit_type : String
  assigned_period_label : String
deriving DecidableEq

/-- `EARLIEST_FISCAL_YEAR_SUFFIX = 17` (`src/app.py:1171`). -/
def EARLIEST_FISCAL_YEAR_SUFFIX : Int := 17

/-- `form.split('/')[0]` (`src/app.py:1279`). -/
def baseFormOf (form : String) : String :=
  ⟨(splitOnCharL '/' form.data).headD []⟩

/-- Year-suffix parse of the 10-K/10-Q branch (`src/app.py:1285-1287`):
`year_suffix = -1`, overwritten by `int(period[2:])` when the label starts
with "FY", else by `int(period.split("Q")[-1])` when it contains "Q";
`none` models `int(...)` raising (caught by the enclosing `except`). -/
def suffix10 (period : String) : Option Int :=
  if startsWithL "FY".data period.data then parseIntL (period.data.drop 2)
  else if period.data.contains 'Q' then parseIntL (afterLastChar 'Q' period.data)
  else some (-1)

/-- Year-suffix parse of the 8-K branch (`src/app.py:1224-1228`): checks
"Q" first, then "FY". -/
def suffix8 (label : String) : Option Int :=
  if label.data.contains 'Q' then parseIntL (afterLastChar 'Q' label.data)
  else if containsSubL "FY".data label.data then parseIntL (afterLastSub "FY".data label.data)
  else some (-1)

/-- `is_pre_fy17` (`src/app.py:1231,1290,1311`). -/
def is_pre_fy17 (ys : Int) : Prop :=
  ys < EARLIEST_FISCAL_YEAR_SUFFIX ∧ ¬(ys > 50 ∧ EARLIEST_FISCAL_YEAR_SUFFIX < 50)

instance (ys : Int) : Decidable (is_pre_fy17 ys) := by
  unfold is_pre_fy17; infer_instance

/-- `is_q1_q3_fy17` of the 8-K branch (`src/app.py:1232`). -/
def is_q1_q3_fy17_8K (ys : Int) (label : String) : Prop :=
  ys = EARLIEST_FISCAL_YEAR_SUFFIX ∧ label.data.contains 'Q' = true

instance (ys : Int) (label : String) : Decidable (is_q1_q3_fy17_8K ys label) := by
  unfold is_q1_q3_fy17_8K; infer_instance

/-- `is_q1_q3_fy17` of the 10-K/10-Q branch (`src/app.py:1291,1312`). -/
def is_q1_q3_fy17_10K (ys : Int) (period : String) : Prop :=
  ys = EARLIEST_FISCAL_YEAR_SUFFIX ∧ period.data.contains 'Q' = true ∧
    (startsWithL "1Q".data period.data = true ∨ startsWithL "2Q".data period.data = true ∨
      startsWithL "3Q".data period.data = true)

instance (ys : Int) (period : String) : Decidable (is_q1_q3_fy17_10K ys period) := by
  unfold is_q1_q3_fy17_10K; infer_instance

/-- Build the 10-K/10-Q task dict (`src/app.py:1297-1308`). -/
def mkTask10 (cfg : RunCfg) (f : Filing) (period : String) : Task10 where
  target_url := cfg.archive_base_url ++ f.accession_clean ++ "/" ++ f.primary_doc
  form := f.form
  report_date_str := f.report_date_str
  accession := f.accession_clean
  cik := cfg.cik_padded
  ticker := cfg.ticker
  fy_month := cfg.fy_month_str
  fy_adjust := cfg.fy_adjust
  output_filename_base :=
    (if cfg.ticker = "" then cfg.cik_padded else cfg.ticker) ++ "_" ++ period
  filing_date_str := f.filing_date_str
  acceptance_datetime_str := f.acceptance_datetime_str
  period := period

/-- One iteration of the 10-K/10-Q selection loop body
(`src/app.py:1278-1324`): `none` models `continue` (the record is skipped),
`some (task, period)` models appending the task after claiming `period`. -/
def decide10 (cfg : RunCfg) (latest_only : Bool) (ps : List String) (f : Filing) :
    Option (Task10 × String) :=
  let base_form := baseFormOf f.form
  if ¬(base_form = "10-K" ∨ base_form = "10-Q") then none
  else match f.report_date with
  | none => none
  | some rd =>
    let period := get_period_label_from_report_date base_form rd
      (some cfg.user_fy_end_month_int) cfg.fy_adjust
    match suffix10 period with
    | none => none
    | some ys =>
      if latest_only = false ∧ (is_pre_fy17 ys ∨ is_q1_q3_fy17_10K ys period) then none
      else if period ∈ ps ∧ latest_only = false then none
      else if f.primary_doc = "" then none
      else if latest_only then
        if ¬(is_pre_fy17 ys ∨ is_q1_q3_fy17_10K ys period) then some (mkTask10 cfg f period, period)
        else none
      else if period ∈ ps then none
      else some (mkTask10 cfg f period, period)

/-- The 10-K/10-Q selection loop over `reversed(all_filings_raw)` with the
`processed_periods` set (`src/app.py:1277-1327`); in latest-only mode the
loop breaks after the first emitted task. -/
def loop10 (cfg : RunCfg) (latest_only : Bool) : List Filing → List String → List Task10
  | [], _ => []
  | f :: rest, ps =>
    match decide10 cfg latest_only ps f with
    | none => loop10 cfg latest_only rest ps
    | some (task, period) =>
      if latest_only then [task] else task :: loop10 cfg latest_only rest (period :: ps)

/-- The 10-K/10-Q fetch mode: iterate the date-sorted filing list
newest-first with an empty `processed_periods`. -/
def select10KQ (cfg : RunCfg) (latest_only : Bool) (filings : List Filing) : List Task10 :=
  loop10 cfg latest_only filings.reverse []

/-- One entry of `potential_exhibits_with_filing` (`src/app.py:1190-1194`). -/
structure PotentialExhibit where
  filing_date : Date
  exhibit_info : ExhibitInfo
  original_filing : Filing
deriving DecidableEq

/-- `{item.strip() for item in filing['items'].split(',')}`
(`src/app.py:1179`), as a list. -/
def itemsSetOf (items : String) : List String :=
  (splitOnCharL ',' items.data).map (fun l => (⟨stripWs l⟩ : String))

/-- Phase 1 of the 8-K mode (`src/app.py:1178-1196`): gather 8-K filings
carrying item 2.02 or 9.01 with a primary document for which the resolver
finds an exhibit. -/
def gather8K (resolve : Filing → Option ExhibitInfo) : List Filing → List PotentialExhibit
  | [] => []
  | f :: rest =>
    if f.form = "8-K" ∧ ("2.02" ∈ itemsSetOf f.items ∨ "9.01" ∈ itemsSetOf f.items) then
      if f.primary_doc = "" then gather8K resolve rest
      else match resolve f with
        | some info => ⟨f.filing_date, info, f⟩ :: gather8K resolve rest
        | none => gather8K resolve rest
    else gather8K resolve rest

/-- Date comparison used for `sort(key=lambda x: x['filing_date'])`:
lexicographic on (year, month, day). -/
def dateLe (a b : Date) : Prop :=
  a.year < b.year ∨ (a.year = b.year ∧
    (a.month < b.month ∨ (a.month = b.month ∧ a.day ≤ b.day)))

instance : DecidableRel dateLe := fun a b => by unfold dateLe; infer_instance

/-- Order on potential exhibits by filing date. -/
def peLe (a b : PotentialExhibit) : Prop := dateLe a.filing_date b.filing_date

instance : DecidableRel peLe := fun a b => by unfold peLe; infer_instance

instance : IsTotal PotentialExhibit peLe :=
  ⟨fun a b => by unfold peLe dateLe; omega⟩

instance : IsTrans PotentialExhibit peLe :=
  ⟨fun a b c => by unfold peLe dateLe; omega⟩

/-- The keep-first-URL scan of phase 2 (`src/app.py:1201-1209`), with the
`seen_urls` set as accumulator. -/
def dedupByUrlAux : List String → List PotentialExhibit → List PotentialExhibit
  | _, [] => []
  | seen, e :: rest =>
    if e.exhibit_info.url ∈ seen then dedupByUrlAux seen rest
    else e :: dedupByUrlAux (e.exhibit_info.url :: seen) rest

/-- Phase 2 of the 8-K mode (`src/app.py:1198-1209`): sort ascending by
filing date (a stable sort, modelling `list.sort`), then keep the first
instance of each exhibit URL. -/
def dedupExhibitsByUrl (l : List PotentialExhibit) : List PotentialExhibit :=
  dedupByUrlAux [] (List.insertionSort peLe l)

/-- Build the 8-K earnings task dict (`src/app.py:1248-1269`). -/
def mkTask8 (cfg : RunCfg) (e : PotentialExhibit) (label : String) : Task8 where
  target_url := e.exhibit_info.url
  form := "8-K_ER"
  accession := e.original_filing.accession_clean
  cik := cfg.cik_padded
  ticker := cfg.ticker
  output_filename_base :=
    (if cfg.ticker = "" then cfg.cik_padded else cfg.ticker) ++ "_" ++ label ++ "_prelim"
  filing_date_str := e.original_filing.filing_date_str
  acceptance_datetime_str := e.original_filing.acceptance_datetime_str
  report_date_str := e.original_filing.report_date_str
  fy_month := cfg.fy_month_str
  fy_adjust := cfg.fy_adjust
  exhibit_description := e.exhibit_info.description
  exhibit_type := e.exhibit_info.exType
  assigned_period_label := label

/-- One iteration of the 8-K labeling loop body (`src/app.py:1212-1274`):
`none` models `continue`, `some (task, label)` models appending the task
after claiming `label`.  `fy_month_arg` is the second argument handed to the
distance classifier; `process_filing` passes the already-parsed
`user_fy_end_month_int`. -/
def decide8 (cfg : RunCfg) (fy_month_arg : Option Int) (latest_only : Bool)
    (ps : List String) (e : PotentialExhibit) : Option (Task8 × String) :=
  match get_8k_period_label_by_distance e.original_filing.filing_date fy_month_arg
      cfg.fy_adjust with
  | none => none
  | some label =>
    match suffix8 label with
    | none => none
    | some ys =>
      if latest_only = false ∧ (is_pre_fy17 ys ∨ is_q1_q3_fy17_8K ys label) then none
      else if label ∈ ps then none
      else some (mkTask8 cfg e label, label)

/-- Phase 3 of the 8-K mode (`src/app.py:1212-1274`): label the surviving
exhibits with the `processed_periods` set; latest-only mode breaks after the
first emitted task. -/
def loop8 (cfg : RunCfg) (fy_month_arg : Option Int) (latest_only : Bool) :
    List PotentialExhibit → List String → List Task8
  | [], _ => []
  | e :: rest, ps =>
    match decide8 cfg fy_month_arg latest_only ps e with
    | none => loop8 cfg fy_month_arg latest_only rest ps
    | some (task, label) =>
      if latest_only then [task]
      else task :: loop8 cfg fy_month_arg latest_only rest (label :: ps)

/-- The 8-K earnings fetch mode (`src/app.py:1174-1274`). -/
def select8K (cfg : RunCfg) (resolve : Filing → Option ExhibitInfo)
    (latest_only : Bool) (filings : List Filing) : List Task8 :=
  loop8 cfg (some cfg.user_fy_end_month_int) latest_only
    (dedupExhibitsByUrl (gather8K resolve filings)) []

/-! ### Metadata Aggregator fragment validation (`src/app.py` 1130-1157)

A metadata fragment carries parallel arrays.  Date entries are modelled as
the raw string together with the result of `datetime.strptime` on it
(`parsed = none` models `strptime` raising `ValueError`); an empty
`report_date` string short-circuits to "no report date" without parsing. -/

/-- A date-string entry of a fragment: the raw string and its parse. -/
structure DateStrField where
  raw : String
  parsed : Option Date
deriving DecidableEq

/-- One metadata fragment's parallel arrays (`src/app.py:1132-1138`). -/
structure Fragment where
  accessionNumber : List String
  form : List String
  filingDate : List DateStrField
  reportDate : List DateStrField
  primaryDocument : List String
  items : List String
  acceptanceDateTime : List String
deriving DecidableEq

/-- `accession.replace('-', '')` (`src/app.py:1151`). -/
def cleanAccessionStr (s : String) : String :=
  ⟨s.data.filter (fun c => c != '-')⟩

/-- The per-record loop of the aggregation pass (`src/app.py:1146-1157`):
walk the parallel arrays, skip any record whose filing or report date fails
to parse (the `ValueError` branch), and build a `Filing` from the rest. -/
def buildRecords : List String → List String → List DateStrField → List DateStrField →
    List String → List String → List String → List Filing
  | a :: as, f :: fs, d :: ds, r :: rs, p :: ps, i :: is, t :: ts =>
    let rest := buildRecords as fs ds rs ps is ts
    match d.parsed with
    | none => rest
    | some fd =>
      if r.raw = "" then
        ⟨a, cleanAccessionStr a, f, fd, d.raw, t, none, r.raw, p, i⟩ :: rest
      else match r.parsed with
        | none => rest
        | some rd => ⟨a, cleanAccessionStr a, f, fd, d.raw, t, some rd, r.raw, p, i⟩ :: rest
  | _, _, _, _, _, _, _ => []

/-- Fragment validation and record construction (`src/app.py:1130-1157`):
`none` models the fragment being discarded with a warning on an array-length
mismatch; otherwise the `items` array is padded with empty strings up to the
common length and the records are built. -/
def processFragment (frag : Fragment) : Option (List Filing) :=
  let list_len := frag.accessionNumber.length
  if ¬(list_len = frag.form.length ∧ list_len = frag.filingDate.length ∧
      list_len = frag.primaryDocument.length ∧ list_len = frag.reportDate.length ∧
      list_len = frag.acceptanceDateTime.length) then none
  else
    some (buildRecords frag.accessionNumber frag.form frag.filingDate frag.reportDate
      frag.primaryDocument
      (frag.items ++ List.replicate (list_len - frag.items.length) "")
      frag.acceptanceDateTime)

/-! ### Exhibit Resolver, hyperlink stage (`src/app.py` 832-874)

The resolver's stage 1 walks the document's hyperlinks and matches regular
expressions.  The regexes of the source are embedded as structurally
recursive matchers with Python `re.search` (match-anywhere) semantics:

  - `ex[\s\-_.]*99[\s\-_.]*1` / `...01` / `...2` / `...02` — "ex", any run
    of separator characters, "99", another separator run, the digit suffix;
  - `ex[\s\-_.]*\b99\b(?!\.\d)` — as above but with word boundaries around
    the bare "99" and a negative lookahead rejecting ".digit";
  - keyword patterns `press\srelease`, `earnings`, `financial\sresults`,
    `news\srelease` — literal words joined by one whitespace character.

`urljoin` (Python stdlib) is an external collaborator and is taken as a
function parameter.  A `Link` models one `<a href=...>` element: its `href`
attribute, its text (`get_text`), and the text of its enclosing table row
(empty when there is none). -/

/-- The character class `[\s\-_.]` (ASCII `\s`). -/
def isSepChar (c : Char) : Bool :=
  isWs c || c == '-' || c == '_' || c == '.'

/-- Python regex word characters `\w` (ASCII). -/
def isWordChar (c : Char) : Bool :=
  c.isAlpha || c.isDigit || c == '_'

/-- `re.search` semantics: try the predicate at every suffix position. -/
def searchPred (p : List Char → Bool) : List Char → Bool
  | [] => p []
  | c :: rest => p (c :: rest) || searchPred p rest

/-- Match `[\s\-_.]*` then the continuation `k` (tries every split). -/
def afterSeps (k : List Char → Bool) : List Char → Bool
  | [] => k []
  | c :: rest => k (c :: rest) || (isSepChar c && afterSeps k rest)

/-- Match `ex[\s\-_.]*99[\s\-_.]*{suffix}` at the current position. -/
def matchExNum (suffix : List Char) (s : List Char) : Bool :=
  startsWithL "ex".data s &&
    afterSeps (fun s1 => startsWithL "99".data s1 &&
      afterSeps (fun s2 => startsWithL suffix s2) (s1.drop 2)) (s.drop 2)

/-- The `\b(?!\.\d)` check after the bare "99": the next character (if any)
is a non-word character and is not a dot followed by a digit. -/
def post99ok : List Char → Bool
  | [] => true
  | c :: rest =>
    !isWordChar c &&
      !(c == '.' && (match rest with | d :: _ => d.isDigit | [] => false))

/-- Scan separator characters after "ex" looking for `\b99\b(?!\.\d)`;
`prev` is the character before the current position (needed for the word
boundary before "99"). -/
def bareGo (prev : Char) : List Char → Bool
  | [] => false
  | c :: rest =>
    (startsWithL "99".data (c :: rest) && !isWordChar prev &&
      post99ok ((c :: rest).drop 2)) ||
    (isSepChar c && bareGo c rest)

/-- Match `ex[\s\-_.]*\b99\b(?!\.\d)` at the current position. -/
def matchBareEx99 (s : List Char) : Bool :=
  startsWithL "ex".data s && bareGo 'x' (s.drop 2)

/-- One character of a keyword pattern: a literal or `\s`. -/
inductive CharPat where
  | lit (c : Char)
  | ws
deriving DecidableEq

/-- Match a keyword pattern at the current position. -/
def matchCharPats : List CharPat → List Char → Bool
  | [], _ => true
  | _ :: _, [] => false
  | CharPat.lit a :: ps, c :: cs => a == c && matchCharPats ps cs
  | CharPat.ws :: ps, c :: cs => isWs c && matchCharPats ps cs

/-- A literal word as a keyword pattern. -/
def litPats (s : String) : List CharPat := s.data.map CharPat.lit

/-- Two literal words joined by `\s`. -/
def kwTwoWords (a b : String) : List CharPat :=
  litPats a ++ [CharPat.ws] ++ litPats b

/-- `keyword_patterns` (`src/app.py:840`). -/
def keyword_patterns : List (List CharPat) :=
  [kwTwoWords "press" "release", litPats "earnings",
   kwTwoWords "financial" "results", kwTwoWords "news" "release"]

/-- `any(re.search(kw, context) for kw in keyword_patterns)`
(`src/app.py:855`). -/
def keywordMatch (s : List Char) : Bool :=
  keyword_patterns.any (fun p => searchPred (matchCharPats p) s)

/-- The `exhibit_patterns` loop (`src/app.py:832-839,857-860`): try the five
patterns in order, returning the first match's type and priority. -/
def classifyExhibit (s : List Char) : Option (String × Nat) :=
  if searchPred (matchExNum "1".data) s then some ("EX-99.1", 1)
  else if searchPred (matchExNum "01".data) s then some ("EX-99.1", 1)
  else if searchPred (matchExNum "2".data) s then some ("EX-99.2", 2)
  else if searchPred (matchExNum "02".data) s then some ("EX-99.2", 2)
  else if searchPred matchBareEx99 s then some ("EX-99", 3)
  else none

/-- One `<a href=...>` element of the primary document: href attribute, link
text, and the text of the enclosing `<tr>` ("" when there is none).  The
source extracts the two text strings with `get_text`; for the plain-text
links of interest they coincide up to whitespace normalization. -/
structure Link where
  href : String
  text : String
  rowText : String
deriving DecidableEq

/-- A candidate exhibit link (`src/app.py:865-868`); the source drops the
`priority` key from the returned dict, the embedding keeps it. -/
structure Candidate where
  url : String
  filename : String
  description : String
  exType : String
  priority : Nat
deriving DecidableEq

/-- `os.path.basename(urlparse(url).path)` (`src/app.py:866`): the component
after the last '/', with any query or fragment part cut off. -/
def basenameOfUrl (u : String) : String :=
  ⟨afterLastChar '/' (u.data.takeWhile (fun c => c != '?' && c != '#'))⟩

/-- Classify one hyperlink (`src/app.py:843-868`): skip anchors and
javascript links, require a keyword match on the link text plus row context
and an exhibit-pattern match on href plus link text, and exclude candidates
pointing back at the primary document. -/
def classifyLink (urljoin : String → String → String)
    (primary_doc_url primary_doc_filename : String) (link : Link) : Option Candidate :=
  let href := lowerStr link.href
  let link_text := lowerStr link.text
  if href = "" ∨ startsWithL "#".data href.data = true ∨
      startsWithL "javascript:".data href.data = true then none
  else
    let parent_context_text := lowerStr link.rowText
    let full_context := link_text ++ " " ++ parent_context_text
    let keyword_match := keywordMatch full_context.data
    match classifyExhibit (href ++ " " ++ link_text).data with
    | none => none
    | some (ex_type, priority) =>
      if keyword_match then
        let exhibit_url := urljoin primary_doc_url link.href
        if containsSubL (lowerStr primary_doc_filename).data
            (lowerStr exhibit_url).data then none
        else some ⟨exhibit_url, basenameOfUrl exhibit_url, link.text, ex_type, priority⟩
      else none

/-- Priority order on candidates (`sorted(candidate_links, key=priority)`). -/
def candLe (a b : Candidate) : Prop := a.priority ≤ b.priority

instance : DecidableRel candLe := fun a b => by unfold candLe; infer_instance

/-- `candidate_links` after the hyperlink loop (`src/app.py:842-868`). -/
def stage1Candidates (urljoin : String → String → String)
    (primary_doc_url primary_doc_filename : String) (links : List Link) : List Candidate :=
  links.filterMap (classifyLink urljoin primary_doc_url primary_doc_filename)

/-- The hyperlink stage's result (`src/app.py:870-874`): the head of the
candidate list stably sorted by priority, `none` when no link qualified. -/
def stage1Best (urljoin : String → String → String)
    (primary_doc_url primary_doc_filename : String) (links : List Link) : Option Candidate :=
  (List.insertionSort candLe
    (stage1Candidates urljoin primary_doc_url primary_doc_filename links)).head?


/-- C3: for every report date and fiscal-year-end month in 1..12, the
report-date classifier computes the fiscal-year-end calendar year as
`report_date.year` when `report_date.month <= fyem` and `report_date.year + 1`
otherwise, subtracts 1 from the label year exactly when the basis is
"Previous Year", and for form "10-K" returns `FY{label_year mod 100}`; in
particular for fyem = 12, basis "Same Year", form "10-K", report date
2024-12-31 it returns "FY24". -/
theorem c3_report_date_classifier_annual (rd : Date) (fyem : Int)
    (h1 : 1 ≤ fyem) (h2 : fyem ≤ 12) (adj : String) :
    get_period_label_from_report_date "10-K" rd (some fyem) adj =
      fyStr (specLabelYear rd fyem adj)
    ∧ get_period_label_from_report_date "10-K" ⟨2024, 12, 31⟩ (some 12) "Same Year"
        = "FY24" := by
  constructor
  · have hf : (if 1 ≤ fyem ∧ fyem ≤ 12 then fyem else 12) = fyem := if_pos ⟨h1, h2⟩
    simp only [get_period_label_from_report_date, specLabelYear, hf]
    simp
  · decide

/-- Witness for `c3_report_date_classifier_annual` at report date 2024-12-31,
fyem 12, basis "Same Year". -/
theorem c3_witness :
    (1 : Int) ≤ 12 ∧
    get_period_label_from_report_date "10-K" ⟨2024, 12, 31⟩ (some 12) "Same Year"
      = fyStr (specLabelYear ⟨2024, 12, 31⟩ 12 "Same Year") :=
  ⟨by decide,
    (c3_report_date_classifier_annual ⟨2024, 12, 31⟩ 12 (by decide) (by decide)
      "Same Year").1⟩

/-- C4: for every report date (with a calendar month) and fiscal-year-end
month in 1..12, the report-date classifier for form "10-Q" computes
`months_past_start = (report_date.month - ((fyem % 12) + 1) + 12) mod 12` and
`quarter = months_past_start // 3 + 1`, clamps any out-of-range quarter into
[1,3] rather than failing, and returns `{quarter}Q{label_year mod 100}`; in
particular for fyem = 6, basis "Same Year", report date 2024-09-30 it returns
"1Q25". -/
theorem c4_report_date_classifier_quarterly (rd : Date) (fyem : Int)
    (hm1 : 1 ≤ rd.month) (hm2 : rd.month ≤ 12)
    (h1 : 1 ≤ fyem) (h2 : fyem ≤ 12) (adj : String) :
    (∃ q : Int, 1 ≤ q ∧ q ≤ 3 ∧
      get_period_label_from_report_date "10-Q" rd (some fyem) adj =
        qStr q (specLabelYear rd fyem adj) ∧
      (specQuarter rd fyem ≤ 3 → q = specQuarter rd fyem))
    ∧ get_period_label_from_report_date "10-Q" ⟨2024, 9, 30⟩ (some 6) "Same Year"
        = "1Q25" := by
  constructor
  · have hf : (if 1 ≤ fyem ∧ fyem ≤ 12 then fyem else 12) = fyem := if_pos ⟨h1, h2⟩
    have hmp0 : 0 ≤ specMonthsPastStart rd fyem := by
      unfold specMonthsPastStart; omega
    have hmp1 : specMonthsPastStart rd fyem < 12 := by
      unfold specMonthsPastStart; omega
    by_cases hq : specQuarter rd fyem < 1 ∨ specQuarter rd fyem > 3
    · -- the anomalous case: the computed quarter is clamped into [1,3]
      refine ⟨max 1 (min 3 (if (fyem - rd.month + 12) % 12 < 3 then 3
        else if (fyem - rd.month + 12) % 12 < 6 then 2
        else if (fyem - rd.month + 12) % 12 < 9 then 1 else 3)), ?_, ?_, ?_, ?_⟩
      · omega
      · omega
      · simp only [get_period_label_from_report_date, specLabelYear, hf]
        simp only [specQuarter, specMonthsPastStart] at hq
        rw [if_pos hq, if_neg (by decide : ¬ ("10-Q" : String) = "10-K")]
        simp only [if_true]
      · intro hle; exact absurd hle (by unfold specQuarter specMonthsPastStart at *; omega)
    · refine ⟨specQuarter rd fyem, by unfold specQuarter at *; omega,
        by omega, ?_, fun _ => rfl⟩
      simp only [get_period_label_from_report_date, specLabelYear, hf]
      simp only [specQuarter, specMonthsPastStart] at hq
      rw [if_neg hq, if_neg (by decide : ¬ ("10-Q" : String) = "10-K")]
      simp only [if_true]
      rfl
  · decide

/-- Witness for `c4_report_date_classifier_quarterly` at report date
2024-09-30, fyem 6, basis "Same Year". -/
theorem c4_witness :
    (1 : Int) ≤ 6 ∧
    get_period_label_from_report_date "10-Q" ⟨2024, 9, 30⟩ (some 6) "Same Year"
      = "1Q25" :=
  ⟨by decide,
    (c4_report_date_classifier_quarterly ⟨2024, 9, 30⟩ 6 (by decide) (by decide)
      (by decide) (by decide) "Same Year").2⟩

/-- C5 counterexample: at the spec's own concrete input (fyem = 12, filing
date 2024-02-15) the distance `d = ((2 - 12 - 1) mod 12) + 1` evaluates to 2,
not 4, so the filing lands in the FY bucket (d in [1,3]), not the 1Q bucket;
the classifier returns "FY23". -/
theorem c5_counterexample :
    d8 2 12 = 2 ∧ ¬ d8 2 12 = 4 ∧
    get_8k_period_label_by_distance ⟨2024, 2, 15⟩ (some 12) "Same Year"
      = some "FY23" := by decide

/-- C5 amended: in the distance-from-FYE classifier, for fiscal-year-end
month 12 and filing date 2024-02-15, the distance
`d = ((filing_month - fyem - 1) mod 12) + 1 = ((2-12-1) mod 12) + 1`
evaluates to 2, placing the filing in the FY bucket of the fiscal year that
just ended per the bucket rule d in [1,3] → FY; the resulting label is
"FY23". -/
theorem c5_amended :
    d8 2 12 = ((2 - 12 - 1 : Int) % 12) + 1 ∧ d8 2 12 = 2 ∧
    (1 ≤ d8 2 12 ∧ d8 2 12 ≤ 3) ∧
    get_8k_period_label_by_distance ⟨2024, 2, 15⟩ (some 12) "Same Year"
      = some "FY23" := by decide

/-- C10: if the fiscal-year-end month argument passed to the report-date
classifier is unparseable (`none`) or outside 1..12, the classifier neither
raises nor returns `none`: it silently substitutes month 12 and returns the
ordinary period label it would return for month 12 — in contrast to the
distance-from-FYE classifier, which returns `none` on an unparseable month. -/
theorem c10_report_date_classifier_month_fallback :
    (∀ (form : String) (rd : Date) (adj : String),
      get_period_label_from_report_date form rd none adj =
        get_period_label_from_report_date form rd (some 12) adj)
    ∧ (∀ (form : String) (rd : Date) (adj : String) (F : Int), F < 1 ∨ 12 < F →
      get_period_label_from_report_date form rd (some F) adj =
        get_period_label_from_report_date form rd (some 12) adj)
    ∧ (∀ (fd : Date) (adj : String),
      get_8k_period_label_by_distance fd none adj = none) := by
  refine ⟨fun form rd adj => rfl, fun form rd adj F hF => ?_, fun fd adj => rfl⟩
  have hf : (if 1 ≤ F ∧ F ≤ 12 then F else 12) = 12 := if_neg (by omega)
  simp only [get_period_label_from_report_date, hf, ite_self]

/-- Witness for `c10_report_date_classifier_month_fallback` at the
out-of-range month 13. -/
theorem c10_witness :
    ((13 : Int) < 1 ∨ (12 : Int) < 13) ∧
    get_period_label_from_report_date "10-K" ⟨2024, 5, 1⟩ (some 13) "Same Year" =
      get_period_label_from_report_date "10-K" ⟨2024, 5, 1⟩ (some 12) "Same Year" :=
  ⟨by decide,
    c10_report_date_classifier_month_fallback.2.1 "10-K" ⟨2024, 5, 1⟩ "Same Year" 13
      (by decide)⟩

/-! ### Selection-engine lemmas -/

/-- A string starting with the two characters `a`, `b` contains `b`. -/
lemma startsWith_cons2_contains (a b : Char) (l : List Char)
    (h : startsWithL [a, b] l = true) : l.contains b = true := by
  match l with
  | [] => simp [startsWithL] at h
  | [c] => simp [startsWithL] at h
  | c1 :: c2 :: tl =>
    simp only [startsWithL, Bool.and_eq_true, beq_iff_eq] at h
    obtain ⟨-, h2, -⟩ := h
    subst h2
    simp [List.contains_cons]

/-- Anatomy of a successful 10-K/10-Q loop-body iteration: the emitted task
carries the claimed period, the period was unclaimed (in full mode), and the
period passed the cutoff filter. -/
lemma decide10_some (cfg : RunCfg) (lo : Bool) (ps : List String) (f : Filing)
    (t : Task10) (p : String) (h : decide10 cfg lo ps f = some (t, p)) :
    t.period = p ∧ (lo = false → p ∉ ps) ∧
    ∃ ys, suffix10 p = some ys ∧ ¬ is_pre_fy17 ys ∧ ¬ is_q1_q3_fy17_10K ys p := by
  simp only [decide10] at h
  split at h
  · exact absurd h (by simp)
  split at h
  · exact absurd h (by simp)
  split at h
  · exact absurd h (by simp)
  next ys hys =>
    split at h
    · exact absurd h (by simp)
    next hc1 =>
      split at h
      · exact absurd h (by simp)
      next hc2 =>
        split at h
        · exact absurd h (by simp)
        split at h
        · -- latest-only emission branch
          next hlo =>
            split at h
            · next hcut =>
              obtain ⟨h1, h2⟩ := Prod.mk.injEq .. ▸ Option.some.injEq .. ▸ h
              subst h2; subst h1
              refine ⟨rfl, ?_, ys, hys, ?_, ?_⟩
              · intro hf; rw [hf] at hlo; exact absurd hlo (by simp)
              · exact fun hpre => hcut (Or.inl hpre)
              · exact fun hq => hcut (Or.inr hq)
            · exact absurd h (by simp)
        · -- full-mode emission branch
          next hlo =>
            split at h
            · exact absurd h (by simp)
            next hmem =>
              obtain ⟨h1, h2⟩ := Prod.mk.injEq .. ▸ Option.some.injEq .. ▸ h
              subst h2; subst h1
              have hlo' : lo = false := by
                cases lo
                · rfl
                · exact absurd rfl hlo
              refine ⟨rfl, fun _ => hmem, ys, hys, ?_, ?_⟩
              · exact fun hpre => hc1 ⟨hlo', Or.inl hpre⟩
              · exact fun hq => hc1 ⟨hlo', Or.inr hq⟩

/-- Anatomy of a successful 8-K loop-body iteration. -/
lemma decide8_some (cfg : RunCfg) (fy : Option Int) (lo : Bool) (ps : List String)
    (e : PotentialExhibit) (t : Task8) (p : String)
    (h : decide8 cfg fy lo ps e = some (t, p)) :
    t.assigned_period_label = p ∧ p ∉ ps ∧
    (lo = false →
      ∃ ys, suffix8 p = some ys ∧ ¬ is_pre_fy17 ys ∧ ¬ is_q1_q3_fy17_8K ys p) := by
  simp only [decide8] at h
  split at h
  · exact absurd h (by simp)
  split at h
  · exact absurd h (by simp)
  next ys hys =>
    split at h
    · exact absurd h (by simp)
    next hc1 =>
      split at h
      · exact absurd h (by simp)
      next hmem =>
        obtain ⟨h1, h2⟩ := Prod.mk.injEq .. ▸ Option.some.injEq .. ▸ h
        subst h2; subst h1
        refine ⟨rfl, hmem, fun hlo => ⟨ys, hys, ?_, ?_⟩⟩
        · exact fun hpre => hc1 ⟨hlo, Or.inl hpre⟩
        · exact fun hq => hc1 ⟨hlo, Or.inr hq⟩

/-- In full (non-latest-only) 10-K/10-Q mode, every emitted task's period is
absent from the incoming `processed_periods` set. -/
lemma loop10_mem_not_mem (cfg : RunCfg) :
    ∀ (l : List Filing) (ps : List String) (t : Task10),
      t ∈ loop10 cfg false l ps → t.period ∉ ps := by
  intro l
  induction l with
  | nil => intro ps t h; simp [loop10] at h
  | cons f rest ih =>
    intro ps t h
    rw [loop10] at h
    cases hd : decide10 cfg false ps f with
    | none => rw [hd] at h; exact ih ps t h
    | some tp =>
      obtain ⟨task, period⟩ := tp
      rw [hd] at h
      simp only [Bool.false_eq_true, if_false] at h
      rcases List.mem_cons.mp h with h | h
      · obtain ⟨hper, hnm, -⟩ := decide10_some cfg false ps f task period hd
        rw [h, hper]; exact hnm rfl
      · have := ih (period :: ps) t h
        exact fun hps => this (List.mem_cons_of_mem _ hps)

/-- In full 10-K/10-Q mode the emitted period labels are pairwise distinct. -/
lemma loop10_labels_nodup (cfg : RunCfg) :
    ∀ (l : List Filing) (ps : List String),
      ((loop10 cfg false l ps).map Task10.period).Nodup := by
  intro l
  induction l with
  | nil => intro ps; simp [loop10]
  | cons f rest ih =>
    intro ps
    rw [loop10]
    cases hd : decide10 cfg false ps f with
    | none => exact ih ps
    | some tp =>
      obtain ⟨task, period⟩ := tp
      simp only [Bool.false_eq_true, if_false, List.map_cons, List.nodup_cons]
      refine ⟨?_, ih (period :: ps)⟩
      intro hmem
      obtain ⟨x, hx, hxp⟩ := List.mem_map.mp hmem
      obtain ⟨hper, -, -⟩ := decide10_some cfg false ps f task period hd
      have := loop10_mem_not_mem cfg rest (period :: ps) x hx
      exact this (by rw [hxp, hper]; exact List.mem_cons_self _ _)

/-- In full 8-K mode, every emitted task's label is absent from the incoming
`processed_periods` set. -/
lemma loop8_mem_not_mem (cfg : RunCfg) (fy : Option Int) :
    ∀ (l : List PotentialExhibit) (ps : List String) (t : Task8),
      t ∈ loop8 cfg fy false l ps → t.assigned_period_label ∉ ps := by
  intro l
  induction l with
  | nil => intro ps t h; simp [loop8] at h
  | cons e rest ih =>
    intro ps t h
    rw [loop8] at h
    cases hd : decide8 cfg fy false ps e with
    | none => rw [hd] at h; exact ih ps t h
    | some tp =>
      obtain ⟨task, label⟩ := tp
      rw [hd] at h
      simp only [Bool.false_eq_true, if_false] at h
      rcases List.mem_cons.mp h with h | h
      · obtain ⟨hper, hnm, -⟩ := decide8_some cfg fy false ps e task label hd
        rw [h, hper]; exact hnm
      · have := ih (label :: ps) t h
        exact fun hps => this (List.mem_cons_of_mem _ hps)

/-- In full 8-K mode the emitted period labels are pairwise distinct. -/
lemma loop8_labels_nodup (cfg : RunCfg) (fy : Option Int) :
    ∀ (l : List PotentialExhibit) (ps : List String),
      ((loop8 cfg fy false l ps).map Task8.assigned_period_label).Nodup := by
  intro l
  induction l with
  | nil => intro ps; simp [loop8]
  | cons e rest ih =>
    intro ps
    rw [loop8]
    cases hd : decide8 cfg fy false ps e with
    | none => exact ih ps
    | some tp =>
      obtain ⟨task, label⟩ := tp
      simp only [Bool.false_eq_true, if_false, List.map_cons, List.nodup_cons]
      refine ⟨?_, ih (label :: ps)⟩
      intro hmem
      obtain ⟨x, hx, hxp⟩ := List.mem_map.mp hmem
      obtain ⟨hper, -, -⟩ := decide8_some cfg fy false ps e task label hd
      have := loop8_mem_not_mem cfg fy rest (label :: ps) x hx
      exact this (by rw [hxp, hper]; exact List.mem_cons_self _ _)

/-- Every task emitted by the 10-K/10-Q loop (either latest_only mode)
passed the cutoff filter. -/
lemma loop10_cutoff (cfg : RunCfg) (lo : Bool) :
    ∀ (l : List Filing) (ps : List String) (t : Task10), t ∈ loop10 cfg lo l ps →
      ∃ ys, suffix10 t.period = some ys ∧ ¬ is_pre_fy17 ys ∧
        ¬ is_q1_q3_fy17_10K ys t.period := by
  intro l
  induction l with
  | nil => intro ps t h; simp [loop10] at h
  | cons f rest ih =>
    intro ps t h
    rw [loop10] at h
    cases hd : decide10 cfg lo ps f with
    | none => rw [hd] at h; exact ih ps t h
    | some tp =>
      obtain ⟨task, period⟩ := tp
      rw [hd] at h
      obtain ⟨hper, -, hcut⟩ := decide10_some cfg lo ps f task period hd
      have hh : t ∈ (if lo = true then [task]
          else task :: loop10 cfg lo rest (period :: ps)) := h
      split at hh
      · rcases List.mem_singleton.mp hh with rfl
        rw [hper]; exact hcut
      · rcases List.mem_cons.mp hh with rfl | hh
        · rw [hper]; exact hcut
        · exact ih (period :: ps) t hh

/-- Every task emitted by the 8-K loop in full mode passed the cutoff
filter. -/
lemma loop8_cutoff (cfg : RunCfg) (fy : Option Int) :
    ∀ (l : List PotentialExhibit) (ps : List String) (t : Task8),
      t ∈ loop8 cfg fy false l ps →
      ∃ ys, suffix8 t.assigned_period_label = some ys ∧ ¬ is_pre_fy17 ys ∧
        ¬ is_q1_q3_fy17_8K ys t.assigned_period_label := by
  intro l
  induction l with
  | nil => intro ps t h; simp [loop8] at h
  | cons e rest ih =>
    intro ps t h
    rw [loop8] at h
    cases hd : decide8 cfg fy false ps e with
    | none => rw [hd] at h; exact ih ps t h
    | some tp =>
      obtain ⟨task, label⟩ := tp
      rw [hd] at h
      obtain ⟨hper, -, hcut⟩ := decide8_some cfg fy false ps e task label hd
      simp only [Bool.false_eq_true, if_false] at h
      rcases List.mem_cons.mp h with rfl | h
      · rw [hper]; exact hcut rfl
      · exact ih (label :: ps) t h

/-- C1: in a single run with latest_only disabled, no two Tasks emitted by
the Selection & Dedup Engine (in either 10K_10Q or 8K_Earnings mode) carry
the same period label. -/
theorem c1_dedup_invariant (cfg : RunCfg) (filings : List Filing)
    (resolve : Filing → Option ExhibitInfo) :
    ((select10KQ cfg false filings).map Task10.period).Nodup ∧
    ((select8K cfg resolve false filings).map Task8.assigned_period_label).Nodup :=
  ⟨loop10_labels_nodup cfg filings.reverse [],
   loop8_labels_nodup cfg (some cfg.user_fy_end_month_int)
     (dedupExhibitsByUrl (gather8K resolve filings)) []⟩

/-- C2 counterexample: in 8K_Earnings mode with latest_only enabled the
FY17 cutoff filter is skipped (it sits under `if not latest_only:` at
`src/app.py:1230`), so a run over a single 8-K filed 2017-02-15 (fyem 12,
basis "Same Year") emits a task labelled "FY16", whose year suffix 16 is
strictly below the threshold 17 — refuting the claim for the
"with latest_only" part of "every run". -/
theorem c2_counterexample :
    (select8K ⟨"base/", "TICK", "0000000000", "12", 12, "Same Year"⟩
        (fun _ => some ⟨"base/ex99.htm", "ex99.htm", "Press Release", "EX-99.1"⟩) true
        [⟨"a-raw", "aclean", "8-K", ⟨2017, 2, 15⟩, "2017-02-15", "acc-dt", none, "",
          "doc8k.htm", "2.02"⟩]).map Task8.assigned_period_label = ["FY16"] ∧
    suffix8 "FY16" = some 16 ∧ (16 : Int) < EARLIEST_FISCAL_YEAR_SUFFIX := by decide

/-- C2 amended: every Task emitted by the 10K_10Q mode (with or without
latest_only), and every Task emitted by the 8K_Earnings mode with
latest_only disabled, has a period-label year suffix that is not strictly
below EARLIEST_FISCAL_YEAR_SUFFIX = 17, and none of those carries a
quarterly label whose suffix equals the threshold; the 8K_Earnings mode
with latest_only enabled skips the cutoff filter and is exempt. -/
theorem c2_amended_cutoff (cfg : RunCfg) (filings : List Filing)
    (resolve : Filing → Option ExhibitInfo) (latest_only : Bool) :
    (∀ t ∈ select10KQ cfg latest_only filings,
      ∃ ys, suffix10 t.period = some ys ∧ EARLIEST_FISCAL_YEAR_SUFFIX ≤ ys ∧
        ¬(ys = EARLIEST_FISCAL_YEAR_SUFFIX ∧
          (startsWithL "1Q".data t.period.data = true ∨
           startsWithL "2Q".data t.period.data = true ∨
           startsWithL "3Q".data t.period.data = true))) ∧
    (∀ t ∈ select8K cfg resolve false filings,
      ∃ ys, suffix8 t.assigned_period_label = some ys ∧
        EARLIEST_FISCAL_YEAR_SUFFIX ≤ ys ∧
        ¬(ys = EARLIEST_FISCAL_YEAR_SUFFIX ∧
          t.assigned_period_label.data.contains 'Q' = true)) := by
  constructor
  · intro t ht
    obtain ⟨ys, hys, hpre, hq⟩ := loop10_cutoff cfg latest_only filings.reverse [] t ht
    refine ⟨ys, hys, ?_, ?_⟩
    · unfold is_pre_fy17 EARLIEST_FISCAL_YEAR_SUFFIX at *; omega
    · rintro ⟨h17, hs⟩
      apply hq
      refine ⟨h17, ?_, hs⟩
      rcases hs with hs | hs | hs
      · exact startsWith_cons2_contains '1' 'Q' t.period.data
          (by rwa [show ("1Q".data) = ['1', 'Q'] from rfl] at hs)
      · exact startsWith_cons2_contains '2' 'Q' t.period.data
          (by rwa [show ("2Q".data) = ['2', 'Q'] from rfl] at hs)
      · exact startsWith_cons2_contains '3' 'Q' t.period.data
          (by rwa [show ("3Q".data) = ['3', 'Q'] from rfl] at hs)
  · intro t ht
    obtain ⟨ys, hys, hpre, hq⟩ := loop8_cutoff cfg (some cfg.user_fy_end_month_int)
      (dedupExhibitsByUrl (gather8K resolve filings)) [] t ht
    refine ⟨ys, hys, ?_, ?_⟩
    · unfold is_pre_fy17 EARLIEST_FISCAL_YEAR_SUFFIX at *; omega
    · rintro ⟨h17, hc⟩
      exact hq ⟨h17, hc⟩

/-- Witness for `c2_amended_cutoff`: a concrete full-mode 10-K run emitting
the FY24 task. -/
theorem c2_amended_witness :
    (mkTask10 ⟨"base/", "TICK", "0000000000", "12", 12, "Same Year"⟩
        ⟨"b-raw", "bclean", "10-K", ⟨2025, 2, 1⟩, "2025-02-01", "acc-dt2",
          some ⟨2024, 12, 31⟩, "2024-12-31", "doc10k.htm", ""⟩ "FY24" ∈
      select10KQ ⟨"base/", "TICK", "0000000000", "12", 12, "Same Year"⟩ false
        [⟨"b-raw", "bclean", "10-K", ⟨2025, 2, 1⟩, "2025-02-01", "acc-dt2",
          some ⟨2024, 12, 31⟩, "2024-12-31", "doc10k.htm", ""⟩]) ∧
    (∃ ys, suffix10 (mkTask10 ⟨"base/", "TICK", "0000000000", "12", 12, "Same Year"⟩
        ⟨"b-raw", "bclean", "10-K", ⟨2025, 2, 1⟩, "2025-02-01", "acc-dt2",
          some ⟨2024, 12, 31⟩, "2024-12-31", "doc10k.htm", ""⟩ "FY24").period = some ys ∧
      EARLIEST_FISCAL_YEAR_SUFFIX ≤ ys ∧
      ¬(ys = EARLIEST_FISCAL_YEAR_SUFFIX ∧
        (startsWithL "1Q".data (mkTask10 ⟨"base/", "TICK", "0000000000", "12", 12,
            "Same Year"⟩
          ⟨"b-raw", "bclean", "10-K", ⟨2025, 2, 1⟩, "2025-02-01", "acc-dt2",
            some ⟨2024, 12, 31⟩, "2024-12-31", "doc10k.htm", ""⟩ "FY24").period.data = true ∨
         startsWithL "2Q".data (mkTask10 ⟨"base/", "TICK", "0000000000", "12", 12,
            "Same Year"⟩
          ⟨"b-raw", "bclean", "10-K", ⟨2025, 2, 1⟩, "2025-02-01", "acc-dt2",
            some ⟨2024, 12, 31⟩, "2024-12-31", "doc10k.htm", ""⟩ "FY24").period.data = true ∨
         startsWithL "3Q".data (mkTask10 ⟨"base/", "TICK", "0000000000", "12", 12,
            "Same Year"⟩
          ⟨"b-raw", "bclean", "10-K", ⟨2025, 2, 1⟩, "2025-02-01", "acc-dt2",
            some ⟨2024, 12, 31⟩, "2024-12-31", "doc10k.htm", ""⟩ "FY24").period.data = true))) :=
  ⟨by decide,
    (c2_amended_cutoff ⟨"base/", "TICK", "0000000000", "12", 12, "Same Year"⟩
        [⟨"b-raw", "bclean", "10-K", ⟨2025, 2, 1⟩, "2025-02-01", "acc-dt2",
          some ⟨2024, 12, 31⟩, "2024-12-31", "doc10k.htm", ""⟩]
        (fun _ => none) false).1 _ (by decide)⟩

/-- C9: the distance-from-FYE classifier returns `none` exactly when its
fiscal-year-end month argument is unparseable, and the 8-K labeling loop
skips (assigns no label and emits no task for) an exhibit on which the
classifier returns `none`. -/
theorem c9_distance_classifier_none :
    (∀ (fd : Date) (adj : String), get_8k_period_label_by_distance fd none adj = none)
    ∧ (∀ (fd : Date) (F : Int) (adj : String),
        get_8k_period_label_by_distance fd (some F) adj ≠ none)
    ∧ (∀ (cfg : RunCfg) (fy : Option Int) (lo : Bool) (e : PotentialExhibit)
        (rest : List PotentialExhibit) (ps : List String),
        get_8k_period_label_by_distance e.original_filing.filing_date fy cfg.fy_adjust
          = none →
        loop8 cfg fy lo (e :: rest) ps = loop8 cfg fy lo rest ps) := by
  refine ⟨fun fd adj => rfl, fun fd F adj => by simp [get_8k_period_label_by_distance],
    fun cfg fy lo e rest ps h => ?_⟩
  rw [loop8]
  have hd : decide8 cfg fy lo ps e = none := by
    simp only [decide8, h]
  rw [hd]

/-- Witness for `c9_distance_classifier_none`: with an unparseable month the
classifier returns `none` and the loop skips the exhibit. -/
theorem c9_witness :
    get_8k_period_label_by_distance
      (PotentialExhibit.original_filing ⟨⟨2020, 1, 2⟩, ⟨"u", "f", "d", "EX-99.1"⟩,
        ⟨"r", "rc", "8-K", ⟨2020, 1, 2⟩, "2020-01-02", "a", none, "", "p.htm", "2.02"⟩⟩).filing_date
      none "Same Year" = none ∧
    loop8 ⟨"b", "T", "c", "12", 12, "Same Year"⟩ none false
      [⟨⟨2020, 1, 2⟩, ⟨"u", "f", "d", "EX-99.1"⟩,
        ⟨"r", "rc", "8-K", ⟨2020, 1, 2⟩, "2020-01-02", "a", none, "", "p.htm", "2.02"⟩⟩] [] =
    loop8 ⟨"b", "T", "c", "12", 12, "Same Year"⟩ none false [] [] :=
  ⟨rfl,
    c9_distance_classifier_none.2.2 ⟨"b", "T", "c", "12", 12, "Same Year"⟩ none false
      ⟨⟨2020, 1, 2⟩, ⟨"u", "f", "d", "EX-99.1"⟩,
        ⟨"r", "rc", "8-K", ⟨2020, 1, 2⟩, "2020-01-02", "a", none, "", "p.htm", "2.02"⟩⟩
      [] [] rfl⟩

/-! ### Dedup-by-URL lemmas (C6) -/

/-- `dateLe` is reflexive. -/
lemma dateLe_refl (a : Date) : dateLe a a := by unfold dateLe; omega

/-- Every survivor of the keep-first scan is an input element whose URL was
not yet seen. -/
lemma dedupByUrlAux_mem :
    ∀ (seen : List String) (l : List PotentialExhibit) (e : PotentialExhibit),
      e ∈ dedupByUrlAux seen l → e ∈ l ∧ e.exhibit_info.url ∉ seen := by
  intro seen l
  induction l generalizing seen with
  | nil => intro e h; simp [dedupByUrlAux] at h
  | cons x rest ih =>
    intro e h
    rw [dedupByUrlAux] at h
    split at h
    · obtain ⟨h1, h2⟩ := ih seen e h
      exact ⟨List.mem_cons_of_mem _ h1, h2⟩
    · next hx =>
      rcases List.mem_cons.mp h with rfl | h
      · exact ⟨List.mem_cons_self _ _, hx⟩
      · obtain ⟨h1, h2⟩ := ih (x.exhibit_info.url :: seen) e h
        exact ⟨List.mem_cons_of_mem _ h1,
          fun hs => h2 (List.mem_cons_of_mem _ hs)⟩

/-- The keep-first scan keeps exactly one element per unseen URL present in
the input. -/
lemma dedupByUrlAux_countP (u : String) :
    ∀ (seen : List String) (l : List PotentialExhibit), u ∉ seen →
      (dedupByUrlAux seen l).countP (fun e => e.exhibit_info.url == u) =
        min 1 (l.countP (fun e => e.exhibit_info.url == u)) := by
  intro seen l
  induction l generalizing seen with
  | nil => intro h; simp [dedupByUrlAux]
  | cons x rest ih =>
    intro hu
    rw [dedupByUrlAux]
    split
    · next hx =>
      have hne : (x.exhibit_info.url == u) = false := by
        simp only [beq_eq_false_iff_ne, ne_eq]
        intro he; rw [he] at hx; exact hu hx
      rw [List.countP_cons, hne]
      simpa using ih seen hu
    · next hx =>
      by_cases hxu : x.exhibit_info.url = u
      · have hz : (dedupByUrlAux (x.exhibit_info.url :: seen) rest).countP
            (fun e => e.exhibit_info.url == u) = 0 := by
          rw [List.countP_eq_zero]
          intro e he
          obtain ⟨-, hnm⟩ := dedupByUrlAux_mem _ rest e he
          simp only [beq_eq_false_iff_ne, ne_eq, Bool.not_eq_true, beq_iff_eq]
          intro heq
          exact hnm (by rw [heq, hxu]; exact List.mem_cons_self _ _)
        rw [List.countP_cons, List.countP_cons, hz]
        simp [hxu]
      · have hnm : u ∉ x.exhibit_info.url :: seen := by
          intro h; rcases List.mem_cons.mp h with h | h
          · exact hxu h.symm
          · exact hu h
        have hne : (x.exhibit_info.url == u) = false := by
          simp [beq_eq_false_iff_ne, hxu]
        rw [List.countP_cons, List.countP_cons, hne]
        simpa using ih (x.exhibit_info.url :: seen) hnm

/-- On a date-sorted input the survivor carrying URL `u` is filed no later
than any input element carrying `u`. -/
lemma dedupByUrlAux_minDate (u : String) :
    ∀ (seen : List String) (l : List PotentialExhibit), List.Pairwise peLe l →
      u ∉ seen →
      ∀ s ∈ dedupByUrlAux seen l, s.exhibit_info.url = u →
      ∀ e ∈ l, e.exhibit_info.url = u → dateLe s.filing_date e.filing_date := by
  intro seen l
  induction l generalizing seen with
  | nil => intro _ _ s hs; simp [dedupByUrlAux] at hs
  | cons x rest ih =>
    intro hp hu s hs hsu e he heu
    obtain ⟨hx, hrest⟩ := List.pairwise_cons.mp hp
    rw [dedupByUrlAux] at hs
    split at hs
    · next hseen =>
      rcases List.mem_cons.mp he with rfl | he
      · exact absurd heu (fun h => hu (h ▸ hseen))
      · exact ih seen hrest hu s hs hsu e he heu
    · next hseen =>
      rcases List.mem_cons.mp hs with rfl | hs
      · rcases List.mem_cons.mp he with rfl | he
        · exact dateLe_refl _
        · exact hx e he
      · have hnu : u ∉ x.exhibit_info.url :: seen := by
          rw [← hsu]; exact (dedupByUrlAux_mem _ rest s hs).2
        rcases List.mem_cons.mp he with rfl | he
        · exact absurd (by rw [← heu]; exact List.mem_cons_self _ _) hnu
        · exact ih (x.exhibit_info.url :: seen) hrest hnu s hs hsu e he heu

/-- C6: among event-driven filings whose resolver results share an identical
exhibit URL, exactly one PotentialExhibit survives the URL deduplication,
namely one from a filing with the earliest filing date (candidates are
sorted ascending by filing date and the first occurrence of each URL is
kept). -/
theorem c6_dedup_by_url (l : List PotentialExhibit) (u : String)
    (hne : ∃ e ∈ l, e.exhibit_info.url = u) :
    (dedupExhibitsByUrl l).countP (fun e => e.exhibit_info.url == u) = 1 ∧
    ∀ s ∈ dedupExhibitsByUrl l, s.exhibit_info.url = u →
      ∀ e ∈ l, e.exhibit_info.url = u → dateLe s.filing_date e.filing_date := by
  have hperm := List.perm_insertionSort peLe l
  constructor
  · rw [dedupExhibitsByUrl, dedupByUrlAux_countP u [] _ (by simp),
      hperm.countP_eq]
    obtain ⟨e, he, heu⟩ := hne
    have hpos : 0 < l.countP (fun e => e.exhibit_info.url == u) :=
      List.countP_pos_iff.mpr ⟨e, he, by simp [heu]⟩
    omega
  · intro s hs hsu e he heu
    exact dedupByUrlAux_minDate u [] (List.insertionSort peLe l)
      (List.sorted_insertionSort peLe l) (by simp) s hs hsu e
      (hperm.mem_iff.mpr he) heu

/-- Witness for `c6_dedup_by_url`: two filings re-linking the same exhibit
URL, presented newest-first; one survivor remains and it is the
earlier-filed one. -/
theorem c6_witness :
    (dedupExhibitsByUrl
        [⟨⟨2021, 5, 4⟩, ⟨"base/ex99.htm", "ex99.htm", "Press Release", "EX-99.1"⟩,
          ⟨"r2", "rc2", "8-K", ⟨2021, 5, 4⟩, "2021-05-04", "a2", none, "", "p2.htm", "2.02"⟩⟩,
         ⟨⟨2020, 2, 3⟩, ⟨"base/ex99.htm", "ex99.htm", "Press Release", "EX-99.1"⟩,
          ⟨"r1", "rc1", "8-K", ⟨2020, 2, 3⟩, "2020-02-03", "a1", none, "", "p1.htm", "2.02"⟩⟩]).countP
      (fun e => e.exhibit_info.url == "base/ex99.htm") = 1 ∧
    ∀ s ∈ dedupExhibitsByUrl
        [⟨⟨2021, 5, 4⟩, ⟨"base/ex99.htm", "ex99.htm", "Press Release", "EX-99.1"⟩,
          ⟨"r2", "rc2", "8-K", ⟨2021, 5, 4⟩, "2021-05-04", "a2", none, "", "p2.htm", "2.02"⟩⟩,
         ⟨⟨2020, 2, 3⟩, ⟨"base/ex99.htm", "ex99.htm", "Press Release", "EX-99.1"⟩,
          ⟨"r1", "rc1", "8-K", ⟨2020, 2, 3⟩, "2020-02-03", "a1", none, "", "p1.htm", "2.02"⟩⟩],
      s.exhibit_info.url = "base/ex99.htm" →
      ∀ e ∈ [⟨⟨2021, 5, 4⟩, ⟨"base/ex99.htm", "ex99.htm", "Press Release", "EX-99.1"⟩,
          ⟨"r2", "rc2", "8-K", ⟨2021, 5, 4⟩, "2021-05-04", "a2", none, "", "p2.htm", "2.02"⟩⟩,
         (⟨⟨2020, 2, 3⟩, ⟨"base/ex99.htm", "ex99.htm", "Press Release", "EX-99.1"⟩,
          ⟨"r1", "rc1", "8-K", ⟨2020, 2, 3⟩, "2020-02-03", "a1", none, "", "p1.htm", "2.02"⟩⟩ :
            PotentialExhibit)],
        e.exhibit_info.url = "base/ex99.htm" → dateLe s.filing_date e.filing_date :=
  c6_dedup_by_url
    [⟨⟨2021, 5, 4⟩, ⟨"base/ex99.htm", "ex99.htm", "Press Release", "EX-99.1"⟩,
      ⟨"r2", "rc2", "8-K", ⟨2021, 5, 4⟩, "2021-05-04", "a2", none, "", "p2.htm", "2.02"⟩⟩,
     ⟨⟨2020, 2, 3⟩, ⟨"base/ex99.htm", "ex99.htm", "Press Release", "EX-99.1"⟩,
      ⟨"r1", "rc1", "8-K", ⟨2020, 2, 3⟩, "2020-02-03", "a1", none, "", "p1.htm", "2.02"⟩⟩]
    "base/ex99.htm"
    ⟨⟨⟨2021, 5, 4⟩, ⟨"base/ex99.htm", "ex99.htm", "Press Release", "EX-99.1"⟩,
      ⟨"r2", "rc2", "8-K", ⟨2021, 5, 4⟩, "2021-05-04", "a2", none, "", "p2.htm", "2.02"⟩⟩,
      by decide, rfl⟩

/-- C8 counterexample: a fragment whose item-codes array has length 0 while
every other array has length 1 is not discarded — it yields a record — even
though its parallel arrays do not all have equal length, refuting the claim
that a mismatch in any of the seven arrays discards the fragment. -/
theorem c8_counterexample :
    processFragment ⟨["0001-17-000001"], ["10-K"], [⟨"2017-02-15", some ⟨2017, 2, 15⟩⟩],
        [⟨"", none⟩], ["doc.htm"], [], ["t1"]⟩ ≠ none ∧
    ([] : List String).length ≠ (["0001-17-000001"] : List String).length := by decide

/-- C8 amended: the Aggregator checks that the accession, form, filing-date,
report-date, primary-document and acceptance-timestamp arrays (all of the
parallel arrays except the item-codes array) have equal length, and a
fragment with a length mismatch among those six is discarded with a warning,
contributing no record; the item-codes array is exempt — it is padded with
empty strings when short and never causes a discard. -/
theorem c8_amended_fragment_validation (frag : Fragment) :
    (processFragment frag = none ↔
      ¬(frag.accessionNumber.length = frag.form.length ∧
        frag.accessionNumber.length = frag.filingDate.length ∧
        frag.accessionNumber.length = frag.primaryDocument.length ∧
        frag.accessionNumber.length = frag.reportDate.length ∧
        frag.accessionNumber.length = frag.acceptanceDateTime.length)) ∧
    ∀ its : List String, (processFragment { frag with items := its }).isSome =
      (processFragment frag).isSome := by
  constructor
  · by_cases hc : frag.accessionNumber.length = frag.form.length ∧
      frag.accessionNumber.length = frag.filingDate.length ∧
      frag.accessionNumber.length = frag.primaryDocument.length ∧
      frag.accessionNumber.length = frag.reportDate.length ∧
      frag.accessionNumber.length = frag.acceptanceDateTime.length
    · simp [processFragment, hc]
    · simp [processFragment, hc]
  · intro its
    simp only [processFragment]
    by_cases hcn : ¬(frag.accessionNumber.length = frag.form.length ∧
      frag.accessionNumber.length = frag.filingDate.length ∧
      frag.accessionNumber.length = frag.primaryDocument.length ∧
      frag.accessionNumber.length = frag.reportDate.length ∧
      frag.accessionNumber.length = frag.acceptanceDateTime.length)
    · rw [if_pos hcn, if_pos hcn]
    · rw [if_neg hcn, if_neg hcn]
      simp

/-! ### Exhibit Resolver lemmas (C7) -/

/-- A predicate holding at the current position makes the search succeed. -/
lemma searchPred_of_here (k : List Char → Bool) (s : List Char) (h : k s = true) :
    searchPred k s = true := by
  cases s with
  | nil => simpa [searchPred] using h
  | cons c cs => simp [searchPred, h]

/-- A keyword-pattern match survives appending text on the right. -/
lemma matchCharPats_append (p : List CharPat) (s t : List Char)
    (h : matchCharPats p s = true) : matchCharPats p (s ++ t) = true := by
  induction p generalizing s with
  | nil => rfl
  | cons pc ps ih =>
    cases s with
    | nil => cases pc <;> simp [matchCharPats] at h
    | cons c cs =>
      cases pc with
      | lit a =>
        simp only [List.cons_append, matchCharPats, Bool.and_eq_true] at h ⊢
        exact ⟨h.1, ih cs h.2⟩
      | ws =>
        simp only [List.cons_append, matchCharPats, Bool.and_eq_true] at h ⊢
        exact ⟨h.1, ih cs h.2⟩

/-- A keyword-pattern search hit survives appending text on the right. -/
lemma searchPred_matchCharPats_append (p : List CharPat) (s t : List Char)
    (h : searchPred (matchCharPats p) s = true) :
    searchPred (matchCharPats p) (s ++ t) = true := by
  induction s with
  | nil =>
    have hm : matchCharPats p [] = true := by simpa [searchPred] using h
    exact searchPred_of_here _ _ (by simpa using matchCharPats_append p [] t hm)
  | cons c cs ih =>
    simp only [searchPred, Bool.or_eq_true] at h
    rcases h with h | h
    · exact searchPred_of_here _ _
        (by simpa [List.cons_append] using matchCharPats_append p (c :: cs) t h)
    · simp only [List.cons_append, searchPred, Bool.or_eq_true]
      exact Or.inr (ih h)

/-- A keyword match on a context prefix survives appending context. -/
lemma keywordMatch_append (s t : List Char) (h : keywordMatch s = true) :
    keywordMatch (s ++ t) = true := by
  unfold keywordMatch at h ⊢
  rw [List.any_eq_true] at h ⊢
  obtain ⟨p, hp, hs⟩ := h
  exact ⟨p, hp, searchPred_matchCharPats_append p s t hs⟩

/-- The exhibit-pattern table yields exactly the three pairings of type and
priority. -/
lemma classifyExhibit_cases (s : List Char) (ty : String) (p : Nat)
    (h : classifyExhibit s = some (ty, p)) :
    (ty = "EX-99.1" ∧ p = 1) ∨ (ty = "EX-99.2" ∧ p = 2) ∨ (ty = "EX-99" ∧ p = 3) := by
  unfold classifyExhibit at h
  split at h
  · rw [Option.some.injEq, Prod.mk.injEq] at h; exact Or.inl ⟨h.1.symm, h.2.symm⟩
  split at h
  · rw [Option.some.injEq, Prod.mk.injEq] at h; exact Or.inl ⟨h.1.symm, h.2.symm⟩
  split at h
  · rw [Option.some.injEq, Prod.mk.injEq] at h; exact Or.inr (Or.inl ⟨h.1.symm, h.2.symm⟩)
  split at h
  · rw [Option.some.injEq, Prod.mk.injEq] at h; exact Or.inr (Or.inl ⟨h.1.symm, h.2.symm⟩)
  split at h
  · rw [Option.some.injEq, Prod.mk.injEq] at h; exact Or.inr (Or.inr ⟨h.1.symm, h.2.symm⟩)
  · exact absurd h (by simp)

/-- Every candidate's priority is at least 1, and a priority-1 candidate is
classified EX-99.1. -/
lemma classifyLink_priority (uj : String → String → String) (pdu pdf : String)
    (link : Link) (c : Candidate) (h : classifyLink uj pdu pdf link = some c) :
    1 ≤ c.priority ∧ (c.priority = 1 → c.exType = "EX-99.1") := by
  simp only [classifyLink] at h
  split at h
  · exact absurd h (by simp)
  split at h
  · exact absurd h (by simp)
  next ty prio heq =>
    split at h
    · split at h
      · exact absurd h (by simp)
      · rw [Option.some.injEq] at h
        subst h
        rcases classifyExhibit_cases _ ty prio heq with ⟨rfl, rfl⟩ | ⟨rfl, rfl⟩ | ⟨rfl, rfl⟩
        · exact ⟨le_refl 1, fun _ => rfl⟩
        · exact ⟨(by omega : (1 : Nat) ≤ 2), fun hh => absurd hh (by omega : ¬(2 : Nat) = 1)⟩
        · exact ⟨(by omega : (1 : Nat) ≤ 3), fun hh => absurd hh (by omega : ¬(3 : Nat) = 1)⟩
    · exact absurd h (by simp)

/-- The head of the priority-sorted candidate list after inserting `x` in
front of a nonempty sorted list. -/
lemma head_orderedInsert_cand (x y : Candidate) (s' : List Candidate) :
    (List.orderedInsert candLe x (y :: s')).head? =
      some (if x.priority ≤ y.priority then x else y) := by
  simp only [List.orderedInsert]
  by_cases hxy : candLe x y
  · rw [if_pos hxy, if_pos (show x.priority ≤ y.priority from hxy)]; rfl
  · rw [if_neg hxy, if_neg (show ¬ x.priority ≤ y.priority from hxy)]; rfl

/-- The head of the stably priority-sorted candidate list is the first
candidate in document order attaining the minimal priority. -/
lemma insertionSort_head_min :
    ∀ (l : List Candidate), l ≠ [] →
      ∃ best A B, (List.insertionSort candLe l).head? = some best ∧
        l = A ++ best :: B ∧ (∀ a ∈ A, best.priority < a.priority) ∧
        ∀ c ∈ l, best.priority ≤ c.priority := by
  intro l
  induction l with
  | nil => intro h; exact absurd rfl h
  | cons x l' ih =>
    intro _
    cases hl' : l' with
    | nil =>
      subst hl'
      refine ⟨x, [], [], rfl, rfl, by simp, ?_⟩
      intro c hc
      rcases List.mem_singleton.mp hc with rfl
      exact le_refl _
    | cons y l'' =>
      subst hl'
      obtain ⟨b', A', B', hh, hdec, hA, hmin⟩ := ih (by simp)
      have hs : List.insertionSort candLe (x :: y :: l'') =
          List.orderedInsert candLe x (List.insertionSort candLe (y :: l'')) := rfl
      obtain ⟨tl, htl⟩ : ∃ tl, List.insertionSort candLe (y :: l'') = b' :: tl := by
        cases hcase : List.insertionSort candLe (y :: l'') with
        | nil => rw [hcase] at hh; simp at hh
        | cons a tl =>
          rw [hcase] at hh
          simp only [List.head?_cons, Option.some.injEq] at hh
          exact ⟨tl, by rw [hh]⟩
      by_cases hxb : x.priority ≤ b'.priority
      · refine ⟨x, [], y :: l'', ?_, rfl, by simp, ?_⟩
        · rw [hs, htl, head_orderedInsert_cand, if_pos hxb]
        · intro c hc
          rcases List.mem_cons.mp hc with rfl | hc
          · exact le_refl _
          · exact le_trans hxb (hmin c hc)
      · refine ⟨b', x :: A', B', ?_, ?_, ?_, ?_⟩
        · rw [hs, htl, head_orderedInsert_cand, if_neg hxb]
        · rw [List.cons_append, hdec]
        · intro a ha
          rcases List.mem_cons.mp ha with rfl | ha
          · omega
          · exact hA a ha
        · intro c hc
          rcases List.mem_cons.mp hc with rfl | hc
          · omega
          · exact hmin c hc

/-- `(x ++ y).data` is the concatenation of the parts' data. -/
lemma string_data_append : ∀ (x y : String), (x ++ y).data = x.data ++ y.data :=
  fun ⟨_⟩ ⟨_⟩ => rfl

/-- The hyperlink with text "Q3 2024 Earnings Release" and href
"ex99-1.htm" is classified EX-99.1 with priority 1, whatever its enclosing
row says, provided it does not point back at the primary document. -/
lemma classifyLink_q3 (uj : String → String → String) (pdu pdf : String) (row : String)
    (hexcl : containsSubL (lowerStr pdf).data (lowerStr (uj pdu "ex99-1.htm")).data = false) :
    classifyLink uj pdu pdf ⟨"ex99-1.htm", "Q3 2024 Earnings Release", row⟩ =
      some ⟨uj pdu "ex99-1.htm", basenameOfUrl (uj pdu "ex99-1.htm"),
        "Q3 2024 Earnings Release", "EX-99.1", 1⟩ := by
  have hkw : keywordMatch
      ((lowerStr "Q3 2024 Earnings Release").data ++ ' ' :: (lowerStr row).data) = true :=
    keywordMatch_append _ _ (by decide)
  simp only [classifyLink]
  rw [if_neg (by decide :
    ¬(lowerStr "ex99-1.htm" = "" ∨ startsWithL "#".data (lowerStr "ex99-1.htm").data = true ∨
      startsWithL "javascript:".data (lowerStr "ex99-1.htm").data = true))]
  rw [show classifyExhibit
      ((lowerStr "ex99-1.htm" ++ " " ++ lowerStr "Q3 2024 Earnings Release")).data =
      some ("EX-99.1", 1) from by decide]
  simp [hkw, hexcl]

/-- C7: a document containing a hyperlink with text "Q3 2024 Earnings
Release" and href "ex99-1.htm" (not pointing back at the primary document)
makes the hyperlink stage return a candidate classified EX-99.1 with
priority 1 — preferred over any co-occurring candidate of higher priority
number such as a bare EX-99 link — and in general the returned best
candidate has the minimal priority among all candidates, ties broken by
document order. -/
theorem c7_exhibit_resolver (urljoin : String → String → String)
    (pdu pdf : String) (L1 L2 : List Link) (row : String)
    (hexcl : containsSubL (lowerStr pdf).data
      (lowerStr (urljoin pdu "ex99-1.htm")).data = false) :
    ∃ best, stage1Best urljoin pdu pdf
        (L1 ++ ⟨"ex99-1.htm", "Q3 2024 Earnings Release", row⟩ :: L2) = some best ∧
      best.exType = "EX-99.1" ∧ best.priority = 1 ∧
      (∀ c ∈ stage1Candidates urljoin pdu pdf
          (L1 ++ ⟨"ex99-1.htm", "Q3 2024 Earnings Release", row⟩ :: L2),
        best.priority ≤ c.priority) ∧
      ∃ A B, stage1Candidates urljoin pdu pdf
          (L1 ++ ⟨"ex99-1.htm", "Q3 2024 Earnings Release", row⟩ :: L2) = A ++ best :: B ∧
        ∀ a ∈ A, best.priority < a.priority := by
  have hclass := classifyLink_q3 urljoin pdu pdf row hexcl
  have hsplit : stage1Candidates urljoin pdu pdf
      (L1 ++ ⟨"ex99-1.htm", "Q3 2024 Earnings Release", row⟩ :: L2) =
      L1.filterMap (classifyLink urljoin pdu pdf) ++
        (⟨urljoin pdu "ex99-1.htm", basenameOfUrl (urljoin pdu "ex99-1.htm"),
          "Q3 2024 Earnings Release", "EX-99.1", 1⟩ : Candidate) ::
          L2.filterMap (classifyLink urljoin pdu pdf) := by
    unfold stage1Candidates
    rw [List.filterMap_append, List.filterMap_cons, hclass]
  have hne : stage1Candidates urljoin pdu pdf
      (L1 ++ ⟨"ex99-1.htm", "Q3 2024 Earnings Release", row⟩ :: L2) ≠ [] := by
    rw [hsplit]; simp
  obtain ⟨best, A, B, hh, hdec, hA, hmin⟩ := insertionSort_head_min _ hne
  have hup : best.priority ≤ 1 := by
    have := hmin ⟨urljoin pdu "ex99-1.htm", basenameOfUrl (urljoin pdu "ex99-1.htm"),
      "Q3 2024 Earnings Release", "EX-99.1", 1⟩ (by rw [hsplit]; simp)
    simpa using this
  have hbestmem : best ∈ stage1Candidates urljoin pdu pdf
      (L1 ++ ⟨"ex99-1.htm", "Q3 2024 Earnings Release", row⟩ :: L2) := by
    rw [hdec]; simp
  obtain ⟨link, hlink, hcl⟩ := List.mem_filterMap.mp hbestmem
  obtain ⟨hge, hty⟩ := classifyLink_priority urljoin pdu pdf link best hcl
  have hp1 : best.priority = 1 := le_antisymm hup hge
  exact ⟨best, hh, hty hp1, hp1, hmin, A, B, hdec, hA⟩

/-- Witness for `c7_exhibit_resolver`: a concrete document holding a bare
EX-99 earnings link followed by the "Q3 2024 Earnings Release" EX-99.1 link,
with string concatenation as the URL joiner. -/
theorem c7_witness :
    containsSubL (lowerStr "form8k.htm").data
      (lowerStr ((fun (a b : String) => a ++ b) "https://x/000/" "ex99-1.htm")).data
        = false ∧
    (∃ best, stage1Best (fun (a b : String) => a ++ b) "https://x/000/" "form8k.htm"
        ([⟨"ex-99.htm", "Earnings news", ""⟩] ++
          ⟨"ex99-1.htm", "Q3 2024 Earnings Release", ""⟩ :: []) = some best ∧
      best.exType = "EX-99.1" ∧ best.priority = 1 ∧
      (∀ c ∈ stage1Candidates (fun (a b : String) => a ++ b) "https://x/000/" "form8k.htm"
          ([⟨"ex-99.htm", "Earnings news", ""⟩] ++
            ⟨"ex99-1.htm", "Q3 2024 Earnings Release", ""⟩ :: []),
        best.priority ≤ c.priority) ∧
      ∃ A B, stage1Candidates (fun (a b : String) => a ++ b) "https://x/000/" "form8k.htm"
          ([⟨"ex-99.htm", "Earnings news", ""⟩] ++
            ⟨"ex99-1.htm", "Q3 2024 Earnings Release", ""⟩ :: []) = A ++ best :: B ∧
        ∀ a ∈ A, best.priority < a.priority) :=
  ⟨by decide,
    c7_exhibit_resolver (fun a b => a ++ b) "https://x/000/" "form8k.htm"
      [⟨"ex-99.htm", "Earnings news", ""⟩] [] "" (by decide)⟩

end Mzansi
